import Mathlib

/-!
Shallow embedding of the MRAM SPI driver (src/mram.c, src/mram.h).

The driver delegates all hardware access to two caller-supplied
capabilities: a GPIO pin write and a full-duplex SPI byte exchange.
We model a capability as a function over an abstract hardware state
of type sg.  Every driver operation is embedded as a pure function
that threads the hardware state, records the sequence of capability
invocations it performs (the trace), and returns the boolean outcome
exactly as the C code computes it.

Machine integers: addresses and lengths are modelled as Nat.  The C
range check computes addr + len - 1 in size_t arithmetic; size_t is
modelled as 64 bits, so that bound is taken modulo 2 ^ 64 exactly where
the C code can overflow.  Byte values are Nat (the driver never does
arithmetic on data bytes, so no masking is needed on them).

Buffers: a C buffer pointer that may be NULL is modelled as an Option;
the SPI transmit buffer is passed to the capability as the list of
bytes the driver actually populated, together with the declared
transfer length, so that a mismatch between the two (an out-of-bounds
read in the C code) is visible in the model.
-/

/-- Hardware constants from mram.h. -/
def MRAM_GPIO_LOW : Nat := 0

/-- GPIO output level high (device deselected). -/
def MRAM_GPIO_HIGH : Nat := 1

/-- Total size of the MRAM in bytes (512 KiB). -/
def MRAM_SIZE_BYTES : Nat := 512 * 1024

/-- Maximum valid address. -/
def MRAM_MAX_ADDRESS : Nat := MRAM_SIZE_BYTES - 1

/-- Address mask for 19-bit addressing. -/
def MRAM_ADDRESS_MASK : Nat := 0x7FFFF

/-- Recovery time from deep power-down, in microseconds. -/
def MRAM_TRDP_US : Nat := 400

/-- Time to enter deep power-down, in microseconds. -/
def MRAM_TDP_US : Nat := 100

/-- Command opcode: write enable. -/
def MRAM_CMD_WREN : Nat := 0x06

/-- Command opcode: write disable. -/
def MRAM_CMD_WRDI : Nat := 0x04

/-- Command opcode: read status register. -/
def MRAM_CMD_RDSR : Nat := 0x05

/-- Command opcode: write status register. -/
def MRAM_CMD_WRSR : Nat := 0x01

/-- Command opcode: read data. -/
def MRAM_CMD_READ : Nat := 0x03

/-- Command opcode: write data. -/
def MRAM_CMD_WRITE : Nat := 0x02

/-- Command opcode: enter sleep mode. -/
def MRAM_CMD_SLEEP : Nat := 0xB9

/-- Command opcode: exit sleep mode. -/
def MRAM_CMD_WAKE : Nat := 0xAB

/-- Width of size_t, used by the C range check addr + len - 1. -/
def size_t_mod : Nat := 2 ^ 64

/-- Observable capability invocation: one GPIO pin write (with the
result it returned), one SPI exchange (populated outbound bytes,
declared transfer length, whether an inbound buffer was supplied, and
the result it returned), or one blocking delay in microseconds. -/
inductive Ev where
  | gpio (pin level : Nat) (ok : Bool)
  | spi (tx : List Nat) (declLen : Nat) (rxWanted : Bool) (ok : Bool)
  | delay (us : Nat)
deriving DecidableEq, Repr

/-- Result of one GPIO capability call: next hardware state and flag. -/
structure GpioResult (sg : Type) where
  state : sg
  ok : Bool
deriving DecidableEq

/-- Result of one SPI capability call: next hardware state, flag, and
the inbound bytes produced by the exchange. -/
structure SpiResult (sg : Type) where
  state : sg
  ok : Bool
  rx : List Nat
deriving DecidableEq

/-- Device handle, mirroring struct mram: the two capability function
pointers and the chip-select pin number. -/
structure mram (sg : Type) where
  gpio_write : sg → Nat → Nat → GpioResult sg
  spi_transfer : sg → List Nat → Nat → Bool → SpiResult sg
  cs_pin : Nat

/-- Outcome of a driver operation that returns only a flag: final
hardware state, trace of capability invocations, and the C return
value. -/
structure OpResult (sg : Type) where
  state : sg
  trace : List Ev
  ok : Bool
deriving DecidableEq

/-- Outcome of mram_read: additionally the bytes the driver stored
into the caller buffer (empty when the copy loop never ran). -/
structure ReadResult (sg : Type) where
  state : sg
  trace : List Ev
  ok : Bool
  buffer : List Nat
deriving DecidableEq

/-- Outcome of mram_read_status_register: additionally the status
byte stored through the out-pointer (0 when it was never written). -/
structure StatusResult (sg : Type) where
  state : sg
  trace : List Ev
  ok : Bool
  status : Nat
deriving DecidableEq

/-- Outcome of the static helper mram_transfer_byte: one SPI event,
its flag, and the received byte (meaningful only when requested). -/
structure XferResult (sg : Type) where
  state : sg
  ev : Ev
  ok : Bool
  rx : Nat
deriving DecidableEq

/-- Outcome of mram_init: additionally the constructed handle. -/
structure InitResult (sg : Type) where
  state : sg
  trace : List Ev
  ok : Bool
  handle : Option (mram sg)

variable {sg : Type}

/-- Helper mram_transfer_byte from mram.c: a single one-byte SPI
exchange.  The NULL-handle guard of the C helper is unreachable here
because every public entry point checks the handle before calling it,
so the helper takes the handle directly. -/
def mram_transfer_byte (m : mram sg) (s : sg) (tx_byte : Nat) (wantRx : Bool) : XferResult sg :=
  let t := m.spi_transfer s [tx_byte] 1 wantRx
  ⟨t.state, Ev.spi [tx_byte] 1 wantRx t.ok, t.ok, t.rx.getD 0 0⟩

/-- mram_write_enable from mram.c: CS low, WREN byte, CS high.  On a
failed byte exchange it returns false without touching CS again. -/
def mram_write_enable (mo : Option (mram sg)) (s : sg) : OpResult sg :=
  match mo with
  | none => ⟨s, [], false⟩
  | some m =>
    let g1 := m.gpio_write s m.cs_pin MRAM_GPIO_LOW
    if g1.ok = false then ⟨g1.state, [Ev.gpio m.cs_pin MRAM_GPIO_LOW false], false⟩
    else
      let x := mram_transfer_byte m g1.state MRAM_CMD_WREN false
      if x.ok = false then ⟨x.state, [Ev.gpio m.cs_pin MRAM_GPIO_LOW true, x.ev], false⟩
      else
        let g2 := m.gpio_write x.state m.cs_pin MRAM_GPIO_HIGH
        ⟨g2.state, [Ev.gpio m.cs_pin MRAM_GPIO_LOW true, x.ev,
          Ev.gpio m.cs_pin MRAM_GPIO_HIGH g2.ok], g2.ok⟩

/-- mram_write_disable from mram.c: CS low, WRDI byte, CS high. -/
def mram_write_disable (mo : Option (mram sg)) (s : sg) : OpResult sg :=
  match mo with
  | none => ⟨s, [], false⟩
  | some m =>
    let g1 := m.gpio_write s m.cs_pin MRAM_GPIO_LOW
    if g1.ok = false then ⟨g1.state, [Ev.gpio m.cs_pin MRAM_GPIO_LOW false], false⟩
    else
      let x := mram_transfer_byte m g1.state MRAM_CMD_WRDI false
      if x.ok = false then ⟨x.state, [Ev.gpio m.cs_pin MRAM_GPIO_LOW true, x.ev], false⟩
      else
        let g2 := m.gpio_write x.state m.cs_pin MRAM_GPIO_HIGH
        ⟨g2.state, [Ev.gpio m.cs_pin MRAM_GPIO_LOW true, x.ev,
          Ev.gpio m.cs_pin MRAM_GPIO_HIGH g2.ok], g2.ok⟩

/-- mram_init from mram.c: validate the three pointers, store the
capabilities and the pin, drive CS high, then run a full
mram_write_disable transaction. -/
def mram_init (handleNonNull : Bool)
    (gpio : Option (sg → Nat → Nat → GpioResult sg))
    (spi : Option (sg → List Nat → Nat → Bool → SpiResult sg))
    (cs_pin : Nat) (s : sg) : InitResult sg :=
  if handleNonNull = false then ⟨s, [], false, none⟩
  else
    match gpio, spi with
    | some g, some sp =>
      let m : mram sg := ⟨g, sp, cs_pin⟩
      let g1 := g s cs_pin MRAM_GPIO_HIGH
      if g1.ok = false then ⟨g1.state, [Ev.gpio cs_pin MRAM_GPIO_HIGH false], false, some m⟩
      else
        let d := mram_write_disable (some m) g1.state
        ⟨d.state, Ev.gpio cs_pin MRAM_GPIO_HIGH true :: d.trace, d.ok, some m⟩
    | _, _ => ⟨s, [], false, none⟩

/-- mram_read from mram.c.  Arguments mirror the C signature: the
handle (None models a NULL pointer), the hardware state, the address,
whether the destination buffer pointer is non-NULL, and the length.
The 4-byte command buffer is handed to the SPI capability together
with the declared transfer length len + 4, exactly as the C code
passes a 4-byte array with a larger length. -/
def mram_read (mo : Option (mram sg)) (s : sg) (addr : Nat)
    (bufNonNull : Bool) (len : Nat) : ReadResult sg :=
  match mo with
  | none => ⟨s, [], false, []⟩
  | some m =>
    if bufNonNull = false ∨ len = 0 then ⟨s, [], false, []⟩
    else if MRAM_MAX_ADDRESS < addr ∨
        MRAM_MAX_ADDRESS < (addr + len - 1) % size_t_mod then ⟨s, [], false, []⟩
    else
      let a := addr &&& MRAM_ADDRESS_MASK
      let tx_buf := [MRAM_CMD_READ, (a >>> 16) &&& 0xFF, (a >>> 8) &&& 0xFF, a &&& 0xFF]
      let dl := (len + 4) % size_t_mod
      let g1 := m.gpio_write s m.cs_pin MRAM_GPIO_LOW
      if g1.ok = false then ⟨g1.state, [Ev.gpio m.cs_pin MRAM_GPIO_LOW false], false, []⟩
      else
        let t := m.spi_transfer g1.state tx_buf dl true
        if t.ok = false then
          let g2 := m.gpio_write t.state m.cs_pin MRAM_GPIO_HIGH
          ⟨g2.state, [Ev.gpio m.cs_pin MRAM_GPIO_LOW true, Ev.spi tx_buf dl true false,
            Ev.gpio m.cs_pin MRAM_GPIO_HIGH g2.ok], false, []⟩
        else
          let buffer := (List.range len).map (fun i => t.rx.getD (i + 4) 0)
          let g2 := m.gpio_write t.state m.cs_pin MRAM_GPIO_HIGH
          ⟨g2.state, [Ev.gpio m.cs_pin MRAM_GPIO_LOW true, Ev.spi tx_buf dl true true,
            Ev.gpio m.cs_pin MRAM_GPIO_HIGH g2.ok], g2.ok, buffer⟩

/-- mram_write from mram.c.  The data argument models the source
pointer (None for NULL) and len the separate length argument; the
outbound buffer is the 4-byte header followed by the len data bytes,
fully populated, with declared transfer length len + 4. -/
def mram_write (mo : Option (mram sg)) (s : sg) (addr : Nat)
    (data : Option (List Nat)) (len : Nat) : OpResult sg :=
  match mo with
  | none => ⟨s, [], false⟩
  | some m =>
    match data with
    | none => ⟨s, [], false⟩
    | some dat =>
      if len = 0 then ⟨s, [], false⟩
      else if MRAM_MAX_ADDRESS < addr ∨
          MRAM_MAX_ADDRESS < (addr + len - 1) % size_t_mod then ⟨s, [], false⟩
      else
        let a := addr &&& MRAM_ADDRESS_MASK
        let w := mram_write_enable (some m) s
        if w.ok = false then ⟨w.state, w.trace, false⟩
        else
          let tx_buf := MRAM_CMD_WRITE :: ((a >>> 16) &&& 0xFF) :: ((a >>> 8) &&& 0xFF) ::
            (a &&& 0xFF) :: (List.range len).map (fun i => dat.getD i 0)
          let dl := (len + 4) % size_t_mod
          let g1 := m.gpio_write w.state m.cs_pin MRAM_GPIO_LOW
          if g1.ok = false then
            ⟨g1.state, w.trace ++ [Ev.gpio m.cs_pin MRAM_GPIO_LOW false], false⟩
          else
            let t := m.spi_transfer g1.state tx_buf dl false
            if t.ok = false then
              let g2 := m.gpio_write t.state m.cs_pin MRAM_GPIO_HIGH
              ⟨g2.state, w.trace ++ [Ev.gpio m.cs_pin MRAM_GPIO_LOW true,
                Ev.spi tx_buf dl false false,
                Ev.gpio m.cs_pin MRAM_GPIO_HIGH g2.ok], false⟩
            else
              let g2 := m.gpio_write t.state m.cs_pin MRAM_GPIO_HIGH
              if g2.ok = false then
                ⟨g2.state, w.trace ++ [Ev.gpio m.cs_pin MRAM_GPIO_LOW true,
                  Ev.spi tx_buf dl false true,
                  Ev.gpio m.cs_pin MRAM_GPIO_HIGH false], false⟩
              else
                let d := mram_write_disable (some m) g2.state
                ⟨d.state, w.trace ++ [Ev.gpio m.cs_pin MRAM_GPIO_LOW true,
                  Ev.spi tx_buf dl false true,
                  Ev.gpio m.cs_pin MRAM_GPIO_HIGH true] ++ d.trace, d.ok⟩

/-- mram_sleep from mram.c: CS low, sleep opcode, CS high, then a
blocking delay of MRAM_TDP_US microseconds before returning true. -/
def mram_sleep (mo : Option (mram sg)) (s : sg) : OpResult sg :=
  match mo with
  | none => ⟨s, [], false⟩
  | some m =>
    let g1 := m.gpio_write s m.cs_pin MRAM_GPIO_LOW
    if g1.ok = false then ⟨g1.state, [Ev.gpio m.cs_pin MRAM_GPIO_LOW false], false⟩
    else
      let x := mram_transfer_byte m g1.state MRAM_CMD_SLEEP false
      if x.ok = false then ⟨x.state, [Ev.gpio m.cs_pin MRAM_GPIO_LOW true, x.ev], false⟩
      else
        let g2 := m.gpio_write x.state m.cs_pin MRAM_GPIO_HIGH
        if g2.ok = false then
          ⟨g2.state, [Ev.gpio m.cs_pin MRAM_GPIO_LOW true, x.ev,
            Ev.gpio m.cs_pin MRAM_GPIO_HIGH false], false⟩
        else
          ⟨g2.state, [Ev.gpio m.cs_pin MRAM_GPIO_LOW true, x.ev,
            Ev.gpio m.cs_pin MRAM_GPIO_HIGH true, Ev.delay MRAM_TDP_US], true⟩

/-- mram_wake from mram.c: CS low, wake opcode, CS high, then a
blocking delay of MRAM_TRDP_US microseconds before returning true. -/
def mram_wake (mo : Option (mram sg)) (s : sg) : OpResult sg :=
  match mo with
  | none => ⟨s, [], false⟩
  | some m =>
    let g1 := m.gpio_write s m.cs_pin MRAM_GPIO_LOW
    if g1.ok = false then ⟨g1.state, [Ev.gpio m.cs_pin MRAM_GPIO_LOW false], false⟩
    else
      let x := mram_transfer_byte m g1.state MRAM_CMD_WAKE false
      if x.ok = false then ⟨x.state, [Ev.gpio m.cs_pin MRAM_GPIO_LOW true, x.ev], false⟩
      else
        let g2 := m.gpio_write x.state m.cs_pin MRAM_GPIO_HIGH
        if g2.ok = false then
          ⟨g2.state, [Ev.gpio m.cs_pin MRAM_GPIO_LOW true, x.ev,
            Ev.gpio m.cs_pin MRAM_GPIO_HIGH false], false⟩
        else
          ⟨g2.state, [Ev.gpio m.cs_pin MRAM_GPIO_LOW true, x.ev,
            Ev.gpio m.cs_pin MRAM_GPIO_HIGH true, Ev.delay MRAM_TRDP_US], true⟩

/-- mram_read_status_register from mram.c: CS low, RDSR opcode, one
filler byte capturing the status, CS high.  The status out-pointer is
written before the final CS high, so the status field is populated
even when that last pin write fails. -/
def mram_read_status_register (mo : Option (mram sg)) (s : sg)
    (statusNonNull : Bool) : StatusResult sg :=
  match mo with
  | none => ⟨s, [], false, 0⟩
  | some m =>
    if statusNonNull = false then ⟨s, [], false, 0⟩
    else
      let g1 := m.gpio_write s m.cs_pin MRAM_GPIO_LOW
      if g1.ok = false then ⟨g1.state, [Ev.gpio m.cs_pin MRAM_GPIO_LOW false], false, 0⟩
      else
        let x1 := mram_transfer_byte m g1.state MRAM_CMD_RDSR false
        if x1.ok = false then
          ⟨x1.state, [Ev.gpio m.cs_pin MRAM_GPIO_LOW true, x1.ev], false, 0⟩
        else
          let x2 := mram_transfer_byte m x1.state 0xFF true
          if x2.ok = false then
            ⟨x2.state, [Ev.gpio m.cs_pin MRAM_GPIO_LOW true, x1.ev, x2.ev], false, 0⟩
          else
            let g2 := m.gpio_write x2.state m.cs_pin MRAM_GPIO_HIGH
            ⟨g2.state, [Ev.gpio m.cs_pin MRAM_GPIO_LOW true, x1.ev, x2.ev,
              Ev.gpio m.cs_pin MRAM_GPIO_HIGH g2.ok], g2.ok, x2.rx⟩

/-- mram_write_status_register from mram.c: write enable, then CS
low, WRSR opcode, the status byte, CS high, then write disable. -/
def mram_write_status_register (mo : Option (mram sg)) (s : sg)
    (status : Nat) : OpResult sg :=
  match mo with
  | none => ⟨s, [], false⟩
  | some m =>
    let w := mram_write_enable (some m) s
    if w.ok = false then ⟨w.state, w.trace, false⟩
    else
      let g1 := m.gpio_write w.state m.cs_pin MRAM_GPIO_LOW
      if g1.ok = false then
        ⟨g1.state, w.trace ++ [Ev.gpio m.cs_pin MRAM_GPIO_LOW false], false⟩
      else
        let x1 := mram_transfer_byte m g1.state MRAM_CMD_WRSR false
        if x1.ok = false then
          ⟨x1.state, w.trace ++ [Ev.gpio m.cs_pin MRAM_GPIO_LOW true, x1.ev], false⟩
        else
          let x2 := mram_transfer_byte m x1.state status false
          if x2.ok = false then
            ⟨x2.state, w.trace ++ [Ev.gpio m.cs_pin MRAM_GPIO_LOW true, x1.ev, x2.ev], false⟩
          else
            let g2 := m.gpio_write x2.state m.cs_pin MRAM_GPIO_HIGH
            if g2.ok = false then
              ⟨g2.state, w.trace ++ [Ev.gpio m.cs_pin MRAM_GPIO_LOW true, x1.ev, x2.ev,
                Ev.gpio m.cs_pin MRAM_GPIO_HIGH false], false⟩
            else
              let d := mram_write_disable (some m) g2.state
              ⟨d.state, w.trace ++ [Ev.gpio m.cs_pin MRAM_GPIO_LOW true, x1.ev, x2.ev,
                Ev.gpio m.cs_pin MRAM_GPIO_HIGH true] ++ d.trace, d.ok⟩

/-- mram_is_write_enabled from mram.c: fresh status read, then test
the WEL bit (status AND 0x02).  The single boolean return value
conflates errors with a clear bit, as in C. -/
def mram_is_write_enabled (mo : Option (mram sg)) (s : sg) : OpResult sg :=
  match mo with
  | none => ⟨s, [], false⟩
  | some m =>
    let r := mram_read_status_register (some m) s true
    if r.ok = false then ⟨r.state, r.trace, false⟩
    else ⟨r.state, r.trace, decide (r.status &&& 0x02 ≠ 0)⟩

/-- mram_is_write_protected from mram.c: fresh status read, then test
the WPEN bit (status AND 0x80). -/
def mram_is_write_protected (mo : Option (mram sg)) (s : sg) : OpResult sg :=
  match mo with
  | none => ⟨s, [], false⟩
  | some m =>
    let r := mram_read_status_register (some m) s true
    if r.ok = false then ⟨r.state, r.trace, false⟩
    else ⟨r.state, r.trace, decide (r.status &&& 0x80 ≠ 0)⟩

/-- mram_is_block_protected from mram.c: fresh status read, then test
status AND (0x04 shifted left by the block number). -/
def mram_is_block_protected (mo : Option (mram sg)) (s : sg)
    (block_number : Nat) : OpResult sg :=
  match mo with
  | none => ⟨s, [], false⟩
  | some m =>
    let r := mram_read_status_register (some m) s true
    if r.ok = false then ⟨r.state, r.trace, false⟩
    else ⟨r.state, r.trace, decide (r.status &&& (0x04 <<< block_number) ≠ 0)⟩

/-!
Faithful chip model.  Claim C1 quantifies over handles whose two
capabilities faithfully model the chip: a byte-addressable
524288-byte memory obeying the documented command table (spec
section 6, mram.h command reference).  The following state machine is
that model: a total memory function, the chip-select level, and the
write-enable latch.  The GPIO capability drives chip select; the SPI
capability decodes one command per chip-select frame, as the driver
issues them.
-/

/-- Chip state: memory contents, whether chip select is asserted
(low), and the write-enable latch. -/
structure Chip where
  mem : Nat → Nat
  csLow : Bool
  wel : Bool

/-- Store a list of bytes into a memory function at consecutive
addresses starting at a. -/
def memWrite (mem : Nat → Nat) (a : Nat) : List Nat → (Nat → Nat)
  | [] => mem
  | b :: rest => memWrite (fun x => if x = a then b else mem x) (a + 1) rest

/-- GPIO capability of the chip model: a write to the chip-select pin
updates the chip-select level; writes to other pins are ignored.  It
always succeeds. -/
def chip_gpio (cs : Nat) : Chip → Nat → Nat → GpioResult Chip :=
  fun ch pin level =>
    if pin = cs then ⟨{ ch with csLow := decide (level = MRAM_GPIO_LOW) }, true⟩
    else ⟨ch, true⟩

/-- SPI capability of the chip model: when selected, decode the first
outbound byte per the documented command table.  WREN sets the latch,
WRDI clears it, READ streams memory bytes after the 4-byte echo,
WRITE stores the payload when the latch is set.  The exchange itself
always succeeds and returns exactly declLen inbound bytes. -/
def chip_spi : Chip → List Nat → Nat → Bool → SpiResult Chip :=
  fun ch tx declLen _ =>
    if ch.csLow = false then ⟨ch, true, List.replicate declLen 0⟩
    else
      match tx with
      | [] => ⟨ch, true, List.replicate declLen 0⟩
      | cmd :: rest =>
        if cmd = MRAM_CMD_WREN then ⟨{ ch with wel := true }, true, List.replicate declLen 0⟩
        else if cmd = MRAM_CMD_WRDI then ⟨{ ch with wel := false }, true, List.replicate declLen 0⟩
        else if cmd = MRAM_CMD_READ then
          match rest with
          | a2 :: a1 :: a0 :: _ =>
            let a := a2 * 65536 + a1 * 256 + a0
            ⟨ch, true, [0, 0, 0, 0] ++ (List.range (declLen - 4)).map (fun i => ch.mem (a + i))⟩
          | _ => ⟨ch, true, List.replicate declLen 0⟩
        else if cmd = MRAM_CMD_WRITE then
          match rest with
          | a2 :: a1 :: a0 :: d =>
            let a := a2 * 65536 + a1 * 256 + a0
            if ch.wel = true then
              ⟨{ ch with mem := memWrite ch.mem a d }, true, List.replicate declLen 0⟩
            else ⟨ch, true, List.replicate declLen 0⟩
          | _ => ⟨ch, true, List.replicate declLen 0⟩
        else ⟨ch, true, List.replicate declLen 0⟩

/-- Handle whose capabilities are the faithful chip model. -/
def chipHandle (cs : Nat) : mram Chip := ⟨chip_gpio cs, chip_spi, cs⟩

/-- Stub GPIO capability that always succeeds (for witnesses). -/
def okGpio : Unit → Nat → Nat → GpioResult Unit := fun _ _ _ => ⟨(), true⟩

/-- Stub SPI capability that always succeeds, returning declLen zero
bytes (for witnesses). -/
def okSpi : Unit → List Nat → Nat → Bool → SpiResult Unit :=
  fun _ _ declLen _ => ⟨(), true, List.replicate declLen 0⟩

/-- Stub GPIO capability that always fails (for failure-path
witnesses). -/
def badGpio : Unit → Nat → Nat → GpioResult Unit := fun _ _ _ => ⟨(), false⟩

/-- Stub SPI capability that always fails (for failure-path
witnesses and counterexamples). -/
def badSpi : Unit → List Nat → Nat → Bool → SpiResult Unit :=
  fun _ _ declLen _ => ⟨(), false, List.replicate declLen 0⟩

/-- Stub handle with both capabilities succeeding, on pin 5. -/
def okStub : mram Unit := ⟨okGpio, okSpi, 5⟩

/-- Stub handle whose SPI exchange always fails, on pin 5. -/
def badSpiStub : mram Unit := ⟨okGpio, badSpi, 5⟩

/-- Test whether a trace event is an SPI byte exchange. -/
def Ev.isExchange : Ev → Bool
  | Ev.spi _ _ _ _ => true
  | _ => false

/-- Stub SPI capability that succeeds on single-byte exchanges and
fails on longer ones (for failure-path witnesses that need the
write-enable step to succeed but the data transfer to fail). -/
def bigFailSpi : Unit → List Nat → Nat → Bool → SpiResult Unit :=
  fun _ _ declLen _ => ⟨(), decide (declLen = 1), List.replicate declLen 0⟩

/-- Stub handle whose SPI exchange fails exactly on multi-byte
transfers, on pin 5. -/
def bigFailStub : mram Unit := ⟨okGpio, bigFailSpi, 5⟩

/-- Stub SPI capability that always succeeds and returns 0xFF bytes
(for status-register witnesses with all status bits set). -/
def ffSpi : Unit → List Nat → Nat → Bool → SpiResult Unit :=
  fun _ _ declLen _ => ⟨(), true, List.replicate declLen 0xFF⟩

/-- Stub handle whose SPI exchange returns 0xFF bytes, on pin 5. -/
def ffStub : mram Unit := ⟨okGpio, ffSpi, 5⟩

/-! Arithmetic and list helper lemmas. -/

/-- Masking with 255 is reduction modulo 256. -/
theorem and_255_eq_mod (n : Nat) : n &&& 255 = n % 256 :=
  Nat.and_pow_two_sub_one_eq_mod n 8

/-- Masking with the 19-bit address mask is reduction modulo 2 ^ 19. -/
theorem and_mask_eq_mod (n : Nat) : n &&& MRAM_ADDRESS_MASK = n % 2 ^ 19 := by
  have h : MRAM_ADDRESS_MASK = 2 ^ 19 - 1 := by decide
  rw [h]
  exact Nat.and_pow_two_sub_one_eq_mod n 19

/-- For an in-range address the 19-bit mask is the identity. -/
theorem mask_noop (a : Nat) (h : a ≤ MRAM_MAX_ADDRESS) : a &&& MRAM_ADDRESS_MASK = a := by
  rw [and_mask_eq_mod]
  have hb : a < 2 ^ 19 := by
    have : MRAM_MAX_ADDRESS = 2 ^ 19 - 1 := by decide
    omega
  exact Nat.mod_eq_of_lt hb

/-- The three header address bytes, most significant first, decode
back to the in-range address they encode. -/
theorem header_decode (a : Nat) (h : a ≤ MRAM_MAX_ADDRESS) :
    ((a >>> 16) &&& 0xFF) * 65536 + ((a >>> 8) &&& 0xFF) * 256 + (a &&& 0xFF) = a := by
  have h16 : a >>> 16 = a / 2 ^ 16 := Nat.shiftRight_eq_div_pow a 16
  have h8 : a >>> 8 = a / 2 ^ 8 := Nat.shiftRight_eq_div_pow a 8
  have hm : MRAM_MAX_ADDRESS = 524287 := by decide
  rw [show (0xFF : Nat) = 255 from rfl, and_255_eq_mod, and_255_eq_mod, and_255_eq_mod,
    h16, h8]
  rw [hm] at h
  omega

/-- The most significant header address byte of an in-range address
has its top five bits clear. -/
theorem top_byte_lt_8 (a : Nat) (h : a ≤ MRAM_MAX_ADDRESS) : (a >>> 16) &&& 0xFF < 8 := by
  have h16 : a >>> 16 = a / 2 ^ 16 := Nat.shiftRight_eq_div_pow a 16
  have hm : MRAM_MAX_ADDRESS = 524287 := by decide
  rw [show (0xFF : Nat) = 255 from rfl, and_255_eq_mod, h16]
  rw [hm] at h
  omega

/-- Addresses strictly below the write region are untouched. -/
theorem memWrite_lt (d : List Nat) : ∀ (mem : Nat → Nat) (a x : Nat), x < a →
    memWrite mem a d x = mem x := by
  induction d with
  | nil => intro mem a x _; rfl
  | cons b rest ih =>
    intro mem a x hx
    show memWrite (fun y => if y = a then b else mem y) (a + 1) rest x = mem x
    rw [ih _ (a + 1) x (by omega)]
    simp [Nat.ne_of_lt hx]

/-- Reading inside the written region returns the written byte. -/
theorem memWrite_get (d : List Nat) : ∀ (mem : Nat → Nat) (a i : Nat), i < d.length →
    memWrite mem a d (a + i) = d.getD i 0 := by
  induction d with
  | nil => intro mem a i hi; simp at hi
  | cons b rest ih =>
    intro mem a i hi
    cases i with
    | zero =>
      show memWrite (fun y => if y = a then b else mem y) (a + 1) rest (a + 0) = b
      rw [memWrite_lt rest _ (a + 1) (a + 0) (by omega)]
      simp
    | succ n =>
      show memWrite (fun y => if y = a then b else mem y) (a + 1) rest (a + (n + 1)) = rest.getD n 0
      have harith : a + (n + 1) = (a + 1) + n := by omega
      rw [harith, ih _ (a + 1) n (by simpa using hi)]

/-- Reading back a list through getD over its index range is the
identity. -/
theorem map_range_getD (d : List Nat) :
    (List.range d.length).map (fun i => d.getD i 0) = d := by
  apply List.ext_getElem
  · simp
  · intro i h1 h2
    simp only [List.getElem_map, List.getElem_range]
    exact List.getD_eq_getElem d 0 h2

/-- Inbound bytes of the chip READ reply, skipping the 4-byte echo. -/
theorem read_rx_getD (f : Nat → Nat) (n i : Nat) (h : i < n) :
    (([0, 0, 0, 0] ++ (List.range n).map f).getD (i + 4) 0) = f i := by
  rw [List.getD_append_right _ _ _ _ (by simp)]
  have h4 : i + 4 - ([0, 0, 0, 0] : List Nat).length = i := by simp
  rw [h4, List.getD_eq_getElem _ 0 (by simpa using h)]
  simp

/-! Behaviour of the driver operations on the faithful chip model. -/

/-- Write enable on the chip: succeeds, leaves memory intact, sets
the write-enable latch, deasserts chip select. -/
theorem chip_wren_run (cs : Nat) (ch : Chip) :
    mram_write_enable (some (chipHandle cs)) ch =
      ⟨⟨ch.mem, false, true⟩, [Ev.gpio cs MRAM_GPIO_LOW true,
        Ev.spi [MRAM_CMD_WREN] 1 false true, Ev.gpio cs MRAM_GPIO_HIGH true], true⟩ := by
  simp [mram_write_enable, mram_transfer_byte, chipHandle, chip_gpio, chip_spi,
    MRAM_CMD_WREN, MRAM_GPIO_LOW, MRAM_GPIO_HIGH]

/-- Write disable on the chip: succeeds, leaves memory intact, clears
the write-enable latch, deasserts chip select. -/
theorem chip_wrdi_run (cs : Nat) (ch : Chip) :
    mram_write_disable (some (chipHandle cs)) ch =
      ⟨⟨ch.mem, false, false⟩, [Ev.gpio cs MRAM_GPIO_LOW true,
        Ev.spi [MRAM_CMD_WRDI] 1 false true, Ev.gpio cs MRAM_GPIO_HIGH true], true⟩ := by
  simp [mram_write_disable, mram_transfer_byte, chipHandle, chip_gpio, chip_spi,
    MRAM_CMD_WREN, MRAM_CMD_WRDI, MRAM_GPIO_LOW, MRAM_GPIO_HIGH]

/-- Projection of the chip handle: GPIO capability. -/
theorem chipHandle_gpio (cs : Nat) : (chipHandle cs).gpio_write = chip_gpio cs := rfl

/-- Projection of the chip handle: SPI capability. -/
theorem chipHandle_spi (cs : Nat) : (chipHandle cs).spi_transfer = chip_spi := rfl

/-- Projection of the chip handle: chip-select pin. -/
theorem chipHandle_pin (cs : Nat) : (chipHandle cs).cs_pin = cs := rfl

/-- Variant of map_range_getD in getElem normal form. -/
theorem map_range_getElem (d : List Nat) :
    (List.range d.length).map (fun i => (d[i]?).getD 0) = d := by
  have h := map_range_getD d
  simpa using h

/-- Accepted write on the chip: succeeds and stores the data bytes at
consecutive addresses, leaving the latch cleared and chip select
deasserted. -/
theorem chip_write_run (cs : Nat) (ch : Chip) (addr : Nat) (d : List Nat)
    (h1 : 1 ≤ d.length) (hr : addr + d.length - 1 ≤ MRAM_MAX_ADDRESS) :
    mram_write (some (chipHandle cs)) ch addr (some d) d.length =
      ⟨⟨memWrite ch.mem addr d, false, false⟩,
       [Ev.gpio cs MRAM_GPIO_LOW true, Ev.spi [MRAM_CMD_WREN] 1 false true,
        Ev.gpio cs MRAM_GPIO_HIGH true,
        Ev.gpio cs MRAM_GPIO_LOW true,
        Ev.spi (MRAM_CMD_WRITE :: ((addr >>> 16) &&& 0xFF) :: ((addr >>> 8) &&& 0xFF) ::
          (addr &&& 0xFF) :: d) (d.length + 4) false true,
        Ev.gpio cs MRAM_GPIO_HIGH true,
        Ev.gpio cs MRAM_GPIO_LOW true, Ev.spi [MRAM_CMD_WRDI] 1 false true,
        Ev.gpio cs MRAM_GPIO_HIGH true],
       true⟩ := by
  have hm : MRAM_MAX_ADDRESS = 524287 := by decide
  have ha : addr ≤ MRAM_MAX_ADDRESS := by rw [hm] at hr ⊢; omega
  have hmod : (addr + d.length - 1) % size_t_mod = addr + d.length - 1 := by
    apply Nat.mod_eq_of_lt
    show _ < 2 ^ 64
    rw [hm] at hr; omega
  have hcond : ¬(MRAM_MAX_ADDRESS < addr ∨
      MRAM_MAX_ADDRESS < (addr + d.length - 1) % size_t_mod) := by
    rw [hmod]; push_neg; exact ⟨ha, hr⟩
  have hlen0 : ¬(d.length = 0) := by omega
  have hmask := mask_noop addr ha
  have hdec := header_decode addr ha
  have hmod4 : (d.length + 4) % size_t_mod = d.length + 4 := by
    apply Nat.mod_eq_of_lt
    show _ < 2 ^ 64
    rw [hm] at hr; omega
  have hmap := map_range_getElem d
  simp [mram_write, chip_wren_run, chip_wrdi_run, chipHandle_gpio, chipHandle_spi,
    chipHandle_pin, chip_gpio, chip_spi,
    mram_transfer_byte, hcond, hlen0, hmask, hdec, hmod4, hmap,
    MRAM_CMD_WREN, MRAM_CMD_WRDI, MRAM_CMD_READ, MRAM_CMD_WRITE,
    MRAM_GPIO_LOW, MRAM_GPIO_HIGH]

/-- Accepted read on the chip: succeeds, returns the memory bytes at
consecutive addresses, and leaves memory and latch untouched. -/
theorem chip_read_run (cs : Nat) (ch : Chip) (addr len : Nat)
    (h1 : 1 ≤ len) (hr : addr + len - 1 ≤ MRAM_MAX_ADDRESS) :
    mram_read (some (chipHandle cs)) ch addr true len =
      ⟨⟨ch.mem, false, ch.wel⟩,
       [Ev.gpio cs MRAM_GPIO_LOW true,
        Ev.spi [MRAM_CMD_READ, (addr >>> 16) &&& 0xFF, (addr >>> 8) &&& 0xFF, addr &&& 0xFF]
          (len + 4) true true,
        Ev.gpio cs MRAM_GPIO_HIGH true],
       true, (List.range len).map (fun i => ch.mem (addr + i))⟩ := by
  have hm : MRAM_MAX_ADDRESS = 524287 := by decide
  have ha : addr ≤ MRAM_MAX_ADDRESS := by rw [hm] at hr ⊢; omega
  have hmod : (addr + len - 1) % size_t_mod = addr + len - 1 := by
    apply Nat.mod_eq_of_lt
    show _ < 2 ^ 64
    rw [hm] at hr; omega
  have hcond : ¬(MRAM_MAX_ADDRESS < addr ∨
      MRAM_MAX_ADDRESS < (addr + len - 1) % size_t_mod) := by
    rw [hmod]; push_neg; exact ⟨ha, hr⟩
  have hlen0 : ¬(len = 0) := by omega
  have hmask := mask_noop addr ha
  have hdec := header_decode addr ha
  have hmod4 : (len + 4) % size_t_mod = len + 4 := by
    apply Nat.mod_eq_of_lt
    show _ < 2 ^ 64
    rw [hm] at hr; omega
  simp [mram_read, chipHandle_gpio, chipHandle_spi, chipHandle_pin, chip_gpio, chip_spi,
    mram_transfer_byte, hcond, hlen0, hmask, hdec, hmod4,
    MRAM_CMD_WREN, MRAM_CMD_WRDI, MRAM_CMD_READ, MRAM_CMD_WRITE,
    MRAM_GPIO_LOW, MRAM_GPIO_HIGH]
  intro a ha2
  simp [List.getElem?_range, ha2]

/-! Claim theorems. -/

/-- C1: for a handle whose capabilities faithfully model the chip,
and all addresses and lengths with addr + len - 1 at most 524287, a
successful write of len bytes at addr followed by a successful read
of len bytes at addr returns exactly the bytes written. -/
theorem claim_C1_write_read_roundtrip (cs : Nat) (ch : Chip) (addr : Nat) (d : List Nat)
    (h1 : 1 ≤ d.length) (hr : addr + d.length - 1 ≤ MRAM_MAX_ADDRESS) :
    (mram_write (some (chipHandle cs)) ch addr (some d) d.length).ok = true ∧
    (mram_read (some (chipHandle cs))
        (mram_write (some (chipHandle cs)) ch addr (some d) d.length).state
        addr true d.length).ok = true ∧
    (mram_read (some (chipHandle cs))
        (mram_write (some (chipHandle cs)) ch addr (some d) d.length).state
        addr true d.length).buffer = d := by
  have hw := chip_write_run cs ch addr d h1 hr
  have hrd := chip_read_run cs ⟨memWrite ch.mem addr d, false, false⟩ addr d.length h1 hr
  refine ⟨?_, ?_, ?_⟩
  · rw [hw]
  · simp only [hw, hrd]
  · simp only [hw, hrd]
    have hcg : (List.range d.length).map (fun i => memWrite ch.mem addr d (addr + i)) =
        (List.range d.length).map (fun i => d.getD i 0) :=
      List.map_congr_left (fun i hi => memWrite_get d ch.mem addr i (List.mem_range.mp hi))
    rw [hcg, map_range_getD]

/-- Witness for C1 at a concrete input: write then read two bytes at
address 3 on a zeroed chip. -/
theorem claim_C1_witness :
    1 ≤ ([170, 7] : List Nat).length ∧
    3 + ([170, 7] : List Nat).length - 1 ≤ MRAM_MAX_ADDRESS ∧
    ((mram_write (some (chipHandle 5)) ⟨fun _ => 0, false, false⟩ 3 (some [170, 7])
        ([170, 7] : List Nat).length).ok = true ∧
     (mram_read (some (chipHandle 5))
        (mram_write (some (chipHandle 5)) ⟨fun _ => 0, false, false⟩ 3 (some [170, 7])
          ([170, 7] : List Nat).length).state 3 true ([170, 7] : List Nat).length).ok = true ∧
     (mram_read (some (chipHandle 5))
        (mram_write (some (chipHandle 5)) ⟨fun _ => 0, false, false⟩ 3 (some [170, 7])
          ([170, 7] : List Nat).length).state 3 true ([170, 7] : List Nat).length).buffer
        = [170, 7]) :=
  ⟨by decide, by decide,
    claim_C1_write_read_roundtrip 5 ⟨fun _ => 0, false, false⟩ 3 [170, 7]
      (by decide) (by decide)⟩

/-- C2 (amended): a read or write with a NULL handle, NULL buffer,
zero length, addr above 524287, or addr + len - 1 above 524287 where
that bound does not overflow size_t, returns false with the hardware
state unchanged and an empty trace: neither capability is invoked.
The no-overflow side condition is required because the C code
computes the bound in size_t arithmetic. -/
theorem claim_C2_reject_before_bus (mo : Option (mram sg)) (s : sg) (addr len : Nat)
    (bufNonNull : Bool) (data : Option (List Nat)) :
    ((mo = none ∨ bufNonNull = false ∨ len = 0 ∨ MRAM_MAX_ADDRESS < addr ∨
        (MRAM_MAX_ADDRESS < addr + len - 1 ∧ addr + len - 1 < size_t_mod)) →
      mram_read mo s addr bufNonNull len = ⟨s, [], false, []⟩) ∧
    ((mo = none ∨ data = none ∨ len = 0 ∨ MRAM_MAX_ADDRESS < addr ∨
        (MRAM_MAX_ADDRESS < addr + len - 1 ∧ addr + len - 1 < size_t_mod)) →
      mram_write mo s addr data len = ⟨s, [], false⟩) := by
  constructor
  · intro h
    cases mo with
    | none => simp [mram_read]
    | some m =>
      simp only [mram_read]
      rcases h with h | h | h | h | h
      · exact absurd h (by simp)
      · simp [h]
      · simp [h]
      · by_cases hb : (bufNonNull = false ∨ len = 0)
        · simp [hb]
        · rw [if_neg hb, if_pos (Or.inl h)]
      · by_cases hb : (bufNonNull = false ∨ len = 0)
        · simp [hb]
        · rw [if_neg hb, if_pos (Or.inr (by rw [Nat.mod_eq_of_lt h.2]; exact h.1))]
  · intro h
    cases mo with
    | none => simp [mram_write]
    | some m =>
      cases data with
      | none => simp [mram_write]
      | some dat =>
        simp only [mram_write]
        rcases h with h | h | h | h | h
        · exact absurd h (by simp)
        · exact absurd h (by simp)
        · simp [h]
        · by_cases hb : (len = 0)
          · simp [hb]
          · rw [if_neg hb, if_pos (Or.inl h)]
        · by_cases hb : (len = 0)
          · simp [hb]
          · rw [if_neg hb, if_pos (Or.inr (by rw [Nat.mod_eq_of_lt h.2]; exact h.1))]

/-- Witness for C2 (amended) at concrete inputs: a NULL handle read
and an out-of-range write are both rejected with an empty trace. -/
theorem claim_C2_witness :
    mram_read (none : Option (mram Unit)) () 0 true 1 = ⟨(), [], false, []⟩ ∧
    mram_write (some okStub) () 600000 (some [1]) 1 = ⟨(), [], false⟩ :=
  ⟨(claim_C2_reject_before_bus none () 0 1 true (some [1])).1 (Or.inl rfl),
   (claim_C2_reject_before_bus (some okStub) () 600000 1 true (some [1])).2
     (Or.inr (Or.inr (Or.inr (Or.inl (by decide)))))⟩

/-- C2 counterexample: with 64-bit size_t the bound computation
overflows.  At addr = 524287 and len = 2^64 - 524286 the sum
addr + len - 1 equals 2^64, which is 0 in size_t arithmetic, so the
range validation accepts a request whose true bound 2^64 - 1 exceeds
524287; the call invokes both capabilities and returns true. -/
theorem claim_C2_counterexample :
    MRAM_MAX_ADDRESS < 524287 + (size_t_mod - 524286) - 1 ∧
    (mram_read (some okStub) () 524287 true (size_t_mod - 524286)).ok = true ∧
    (mram_read (some okStub) () 524287 true (size_t_mod - 524286)).trace ≠ [] := by
  have hc : ¬(MRAM_MAX_ADDRESS < 524287 ∨
      MRAM_MAX_ADDRESS < (524287 + (size_t_mod - 524286) - 1) % size_t_mod) := by decide
  have hl : ¬(size_t_mod - 524286 = 0) := by decide
  refine ⟨by decide, ?_, ?_⟩
  · simp only [mram_read, okStub, okGpio, okSpi]
    rw [if_neg (by simp [hl]), if_neg (by decide)]
    simp
  · simp only [mram_read, okStub, okGpio, okSpi]
    rw [if_neg (by simp [hl]), if_neg (by decide)]
    simp

/-- C3: mram_write with valid arguments first runs write enable and
aborts on its failure without starting the transfer; it returns true
exactly when write enable, both chip-select edges, the data exchange,
and write disable all succeed, so a failed write disable after a
successful transfer makes the whole write fail.  The same bracketing
holds for mram_write_status_register. -/
theorem claim_C3_write_bracketing (m : mram sg) (s : sg) (addr len : Nat)
    (dat : List Nat) (val : Nat)
    (h1 : 1 ≤ len) (hr : addr + len - 1 ≤ MRAM_MAX_ADDRESS) :
    let w := mram_write_enable (some m) s
    let a := addr &&& MRAM_ADDRESS_MASK
    let tx := MRAM_CMD_WRITE :: ((a >>> 16) &&& 0xFF) :: ((a >>> 8) &&& 0xFF) ::
      (a &&& 0xFF) :: (List.range len).map (fun i => dat.getD i 0)
    let g1 := m.gpio_write w.state m.cs_pin MRAM_GPIO_LOW
    let t := m.spi_transfer g1.state tx ((len + 4) % size_t_mod) false
    let g2 := m.gpio_write t.state m.cs_pin MRAM_GPIO_HIGH
    let dis := mram_write_disable (some m) g2.state
    let x1 := mram_transfer_byte m g1.state MRAM_CMD_WRSR false
    let x2 := mram_transfer_byte m x1.state val false
    let g2s := m.gpio_write x2.state m.cs_pin MRAM_GPIO_HIGH
    let diss := mram_write_disable (some m) g2s.state
    (w.ok = false → mram_write (some m) s addr (some dat) len = ⟨w.state, w.trace, false⟩) ∧
    (mram_write (some m) s addr (some dat) len).ok =
      (w.ok && g1.ok && t.ok && g2.ok && dis.ok) ∧
    (w.ok = true → g1.ok = true → t.ok = true → g2.ok = true →
      mram_write (some m) s addr (some dat) len =
        ⟨dis.state, w.trace ++ [Ev.gpio m.cs_pin MRAM_GPIO_LOW true,
          Ev.spi tx ((len + 4) % size_t_mod) false true,
          Ev.gpio m.cs_pin MRAM_GPIO_HIGH true] ++ dis.trace, dis.ok⟩) ∧
    (w.ok = false → mram_write_status_register (some m) s val = ⟨w.state, w.trace, false⟩) ∧
    (mram_write_status_register (some m) s val).ok =
      (w.ok && g1.ok && x1.ok && x2.ok && g2s.ok && diss.ok) := by
  have hm : MRAM_MAX_ADDRESS = 524287 := by decide
  have hlen0 : ¬(len = 0) := by omega
  have hmod : (addr + len - 1) % size_t_mod = addr + len - 1 := by
    apply Nat.mod_eq_of_lt
    show _ < 2 ^ 64
    rw [hm] at hr; omega
  have ha : addr ≤ MRAM_MAX_ADDRESS := by rw [hm] at hr ⊢; omega
  have hcond : ¬(MRAM_MAX_ADDRESS < addr ∨
      MRAM_MAX_ADDRESS < (addr + len - 1) % size_t_mod) := by
    rw [hmod]; push_neg; exact ⟨ha, hr⟩
  intro w a tx g1 t g2 dis x1 x2 g2s diss
  have hkey : mram_write (some m) s addr (some dat) len =
      (if w.ok = false then ⟨w.state, w.trace, false⟩
       else if g1.ok = false then
         ⟨g1.state, w.trace ++ [Ev.gpio m.cs_pin MRAM_GPIO_LOW false], false⟩
       else if t.ok = false then
         ⟨g2.state, w.trace ++ [Ev.gpio m.cs_pin MRAM_GPIO_LOW true,
           Ev.spi tx ((len + 4) % size_t_mod) false false,
           Ev.gpio m.cs_pin MRAM_GPIO_HIGH g2.ok], false⟩
       else if g2.ok = false then
         ⟨g2.state, w.trace ++ [Ev.gpio m.cs_pin MRAM_GPIO_LOW true,
           Ev.spi tx ((len + 4) % size_t_mod) false true,
           Ev.gpio m.cs_pin MRAM_GPIO_HIGH false], false⟩
       else ⟨dis.state, w.trace ++ [Ev.gpio m.cs_pin MRAM_GPIO_LOW true,
         Ev.spi tx ((len + 4) % size_t_mod) false true,
         Ev.gpio m.cs_pin MRAM_GPIO_HIGH true] ++ dis.trace, dis.ok⟩) := by
    simp only [mram_write]
    rw [if_neg hlen0, if_neg hcond]
  have hkey2 : mram_write_status_register (some m) s val =
      (if w.ok = false then ⟨w.state, w.trace, false⟩
       else if g1.ok = false then
         ⟨g1.state, w.trace ++ [Ev.gpio m.cs_pin MRAM_GPIO_LOW false], false⟩
       else if x1.ok = false then
         ⟨x1.state, w.trace ++ [Ev.gpio m.cs_pin MRAM_GPIO_LOW true, x1.ev], false⟩
       else if x2.ok = false then
         ⟨x2.state, w.trace ++ [Ev.gpio m.cs_pin MRAM_GPIO_LOW true, x1.ev, x2.ev], false⟩
       else if g2s.ok = false then
         ⟨g2s.state, w.trace ++ [Ev.gpio m.cs_pin MRAM_GPIO_LOW true, x1.ev, x2.ev,
           Ev.gpio m.cs_pin MRAM_GPIO_HIGH false], false⟩
       else ⟨diss.state, w.trace ++ [Ev.gpio m.cs_pin MRAM_GPIO_LOW true, x1.ev, x2.ev,
         Ev.gpio m.cs_pin MRAM_GPIO_HIGH true] ++ diss.trace, diss.ok⟩) := rfl
  refine ⟨?_, ?_, ?_, ?_, ?_⟩
  · intro hww
    rw [hkey, if_pos hww]
  · rw [hkey]
    cases hww : w.ok <;> cases hg1c : g1.ok <;> cases htc : t.ok <;> cases hg2c : g2.ok <;> simp
  · intro hww hg1c htc hg2c
    rw [hkey, if_neg (by simp [hww]), if_neg (by simp [hg1c]), if_neg (by simp [htc]),
      if_neg (by simp [hg2c])]
  · intro hww
    rw [hkey2, if_pos hww]
  · rw [hkey2]
    cases hww : w.ok <;> cases hg1c : g1.ok <;> cases hx1c : x1.ok <;> cases hx2c : x2.ok <;>
      cases hg2sc : g2s.ok <;> simp

/-- Witness for C3 at a concrete input: one-byte write at address 0
through the always-succeeding stub capabilities. -/
theorem claim_C3_witness :
    1 ≤ 1 ∧ 0 + 1 - 1 ≤ MRAM_MAX_ADDRESS ∧
    (let w := mram_write_enable (some okStub) ()
     let a := 0 &&& MRAM_ADDRESS_MASK
     let tx := MRAM_CMD_WRITE :: ((a >>> 16) &&& 0xFF) :: ((a >>> 8) &&& 0xFF) ::
       (a &&& 0xFF) :: (List.range 1).map (fun i => ([170] : List Nat).getD i 0)
     let g1 := okStub.gpio_write w.state okStub.cs_pin MRAM_GPIO_LOW
     let t := okStub.spi_transfer g1.state tx ((1 + 4) % size_t_mod) false
     let g2 := okStub.gpio_write t.state okStub.cs_pin MRAM_GPIO_HIGH
     let dis := mram_write_disable (some okStub) g2.state
     let x1 := mram_transfer_byte okStub g1.state MRAM_CMD_WRSR false
     let x2 := mram_transfer_byte okStub x1.state 7 false
     let g2s := okStub.gpio_write x2.state okStub.cs_pin MRAM_GPIO_HIGH
     let diss := mram_write_disable (some okStub) g2s.state
     (w.ok = false → mram_write (some okStub) () 0 (some [170]) 1 = ⟨w.state, w.trace, false⟩) ∧
     (mram_write (some okStub) () 0 (some [170]) 1).ok =
       (w.ok && g1.ok && t.ok && g2.ok && dis.ok) ∧
     (w.ok = true → g1.ok = true → t.ok = true → g2.ok = true →
       mram_write (some okStub) () 0 (some [170]) 1 =
         ⟨dis.state, w.trace ++ [Ev.gpio okStub.cs_pin MRAM_GPIO_LOW true,
           Ev.spi tx ((1 + 4) % size_t_mod) false true,
           Ev.gpio okStub.cs_pin MRAM_GPIO_HIGH true] ++ dis.trace, dis.ok⟩) ∧
     (w.ok = false → mram_write_status_register (some okStub) () 7 = ⟨w.state, w.trace, false⟩) ∧
     (mram_write_status_register (some okStub) () 7).ok =
       (w.ok && g1.ok && x1.ok && x2.ok && g2s.ok && diss.ok)) :=
  ⟨by decide, by decide,
    claim_C3_write_bracketing okStub () 0 1 [170] 7 (by decide) (by decide)⟩

/-- C4 counterexample: mram_write_enable with a failing byte exchange
asserts chip select low (successfully), fails, and returns false with
no attempt to drive chip select high: its trace contains no gpio-high
call at all. -/
theorem claim_C4_counterexample :
    (mram_write_enable (some badSpiStub) ()).ok = false ∧
    Ev.gpio 5 MRAM_GPIO_LOW true ∈ (mram_write_enable (some badSpiStub) ()).trace ∧
    (∀ b, Ev.gpio 5 MRAM_GPIO_HIGH b ∉ (mram_write_enable (some badSpiStub) ()).trace) := by
  decide

/-- C4 (amended): mram_read and the data-transfer phase of mram_write
do attempt to deassert chip select after a failed byte exchange
before returning false, but the single-byte commands (write enable,
write disable, sleep, wake) and the status-register operations return
false on a failed byte exchange without attempting to deassert chip
select within the failing frame. -/
theorem claim_C4_cs_cleanup (m : mram sg) (s : sg) (addr len : Nat)
    (dat : List Nat) (val : Nat)
    (h1 : 1 ≤ len) (hr : addr + len - 1 ≤ MRAM_MAX_ADDRESS) :
    let g1 := m.gpio_write s m.cs_pin MRAM_GPIO_LOW
    let a := addr &&& MRAM_ADDRESS_MASK
    let txr := [MRAM_CMD_READ, (a >>> 16) &&& 0xFF, (a >>> 8) &&& 0xFF, a &&& 0xFF]
    let tr := m.spi_transfer g1.state txr ((len + 4) % size_t_mod) true
    let g2r := m.gpio_write tr.state m.cs_pin MRAM_GPIO_HIGH
    let w := mram_write_enable (some m) s
    let g1w := m.gpio_write w.state m.cs_pin MRAM_GPIO_LOW
    let txw := MRAM_CMD_WRITE :: ((a >>> 16) &&& 0xFF) :: ((a >>> 8) &&& 0xFF) ::
      (a &&& 0xFF) :: (List.range len).map (fun i => dat.getD i 0)
    let tw := m.spi_transfer g1w.state txw ((len + 4) % size_t_mod) false
    let g2w := m.gpio_write tw.state m.cs_pin MRAM_GPIO_HIGH
    let xe := mram_transfer_byte m g1.state MRAM_CMD_WREN false
    let xd := mram_transfer_byte m g1.state MRAM_CMD_WRDI false
    let xs := mram_transfer_byte m g1.state MRAM_CMD_SLEEP false
    let xk := mram_transfer_byte m g1.state MRAM_CMD_WAKE false
    let xr := mram_transfer_byte m g1.state MRAM_CMD_RDSR false
    let xq := mram_transfer_byte m g1w.state MRAM_CMD_WRSR false
    (g1.ok = true → tr.ok = false →
      mram_read (some m) s addr true len =
        ⟨g2r.state, [Ev.gpio m.cs_pin MRAM_GPIO_LOW true,
          Ev.spi txr ((len + 4) % size_t_mod) true false,
          Ev.gpio m.cs_pin MRAM_GPIO_HIGH g2r.ok], false, []⟩) ∧
    (w.ok = true → g1w.ok = true → tw.ok = false →
      mram_write (some m) s addr (some dat) len =
        ⟨g2w.state, w.trace ++ [Ev.gpio m.cs_pin MRAM_GPIO_LOW true,
          Ev.spi txw ((len + 4) % size_t_mod) false false,
          Ev.gpio m.cs_pin MRAM_GPIO_HIGH g2w.ok], false⟩) ∧
    (g1.ok = true → xe.ok = false →
      mram_write_enable (some m) s =
        ⟨xe.state, [Ev.gpio m.cs_pin MRAM_GPIO_LOW true, xe.ev], false⟩ ∧
      ∀ b, Ev.gpio m.cs_pin MRAM_GPIO_HIGH b ∉
        [Ev.gpio m.cs_pin MRAM_GPIO_LOW true, xe.ev]) ∧
    (g1.ok = true → xd.ok = false →
      mram_write_disable (some m) s =
        ⟨xd.state, [Ev.gpio m.cs_pin MRAM_GPIO_LOW true, xd.ev], false⟩ ∧
      ∀ b, Ev.gpio m.cs_pin MRAM_GPIO_HIGH b ∉
        [Ev.gpio m.cs_pin MRAM_GPIO_LOW true, xd.ev]) ∧
    (g1.ok = true → xs.ok = false →
      mram_sleep (some m) s =
        ⟨xs.state, [Ev.gpio m.cs_pin MRAM_GPIO_LOW true, xs.ev], false⟩ ∧
      ∀ b, Ev.gpio m.cs_pin MRAM_GPIO_HIGH b ∉
        [Ev.gpio m.cs_pin MRAM_GPIO_LOW true, xs.ev]) ∧
    (g1.ok = true → xk.ok = false →
      mram_wake (some m) s =
        ⟨xk.state, [Ev.gpio m.cs_pin MRAM_GPIO_LOW true, xk.ev], false⟩ ∧
      ∀ b, Ev.gpio m.cs_pin MRAM_GPIO_HIGH b ∉
        [Ev.gpio m.cs_pin MRAM_GPIO_LOW true, xk.ev]) ∧
    (g1.ok = true → xr.ok = false →
      mram_read_status_register (some m) s true =
        ⟨xr.state, [Ev.gpio m.cs_pin MRAM_GPIO_LOW true, xr.ev], false, 0⟩ ∧
      ∀ b, Ev.gpio m.cs_pin MRAM_GPIO_HIGH b ∉
        [Ev.gpio m.cs_pin MRAM_GPIO_LOW true, xr.ev]) ∧
    (w.ok = true → g1w.ok = true → xq.ok = false →
      mram_write_status_register (some m) s val =
        ⟨xq.state, w.trace ++ [Ev.gpio m.cs_pin MRAM_GPIO_LOW true, xq.ev], false⟩ ∧
      ∀ b, Ev.gpio m.cs_pin MRAM_GPIO_HIGH b ∉
        [Ev.gpio m.cs_pin MRAM_GPIO_LOW true, xq.ev]) := by
  have hm : MRAM_MAX_ADDRESS = 524287 := by decide
  have hlen0 : ¬(len = 0) := by omega
  have hmod : (addr + len - 1) % size_t_mod = addr + len - 1 := by
    apply Nat.mod_eq_of_lt
    show _ < 2 ^ 64
    rw [hm] at hr; omega
  have ha : addr ≤ MRAM_MAX_ADDRESS := by rw [hm] at hr ⊢; omega
  have hcond : ¬(MRAM_MAX_ADDRESS < addr ∨
      MRAM_MAX_ADDRESS < (addr + len - 1) % size_t_mod) := by
    rw [hmod]; push_neg; exact ⟨ha, hr⟩
  simp only []
  refine ⟨?_, ?_, ?_, ?_, ?_, ?_, ?_, ?_⟩
  · intro hg1 htr
    simp only [mram_read]
    rw [if_neg (by simp [hlen0]), if_neg hcond, if_neg (by simp [hg1]), if_pos htr]
  · intro hw hg1w htw
    simp only [mram_write]
    rw [if_neg hlen0, if_neg hcond, if_neg (by simp [hw]), if_neg (by simp [hg1w]),
      if_pos htw]
  · intro hg1 hxe
    refine ⟨?_, ?_⟩
    · simp only [mram_write_enable]
      rw [if_neg (by simp [hg1]), if_pos hxe]
    · intro b
      simp [mram_transfer_byte, MRAM_GPIO_HIGH, MRAM_GPIO_LOW]
  · intro hg1 hxd
    refine ⟨?_, ?_⟩
    · simp only [mram_write_disable]
      rw [if_neg (by simp [hg1]), if_pos hxd]
    · intro b
      simp [mram_transfer_byte, MRAM_GPIO_HIGH, MRAM_GPIO_LOW]
  · intro hg1 hxs
    refine ⟨?_, ?_⟩
    · simp only [mram_sleep]
      rw [if_neg (by simp [hg1]), if_pos hxs]
    · intro b
      simp [mram_transfer_byte, MRAM_GPIO_HIGH, MRAM_GPIO_LOW]
  · intro hg1 hxk
    refine ⟨?_, ?_⟩
    · simp only [mram_wake]
      rw [if_neg (by simp [hg1]), if_pos hxk]
    · intro b
      simp [mram_transfer_byte, MRAM_GPIO_HIGH, MRAM_GPIO_LOW]
  · intro hg1 hxr
    refine ⟨?_, ?_⟩
    · simp only [mram_read_status_register]
      rw [if_neg (by simp), if_neg (by simp [hg1]), if_pos hxr]
    · intro b
      simp [mram_transfer_byte, MRAM_GPIO_HIGH, MRAM_GPIO_LOW]
  · intro hw hg1w hxq
    refine ⟨?_, ?_⟩
    · simp only [mram_write_status_register]
      rw [if_neg (by simp [hw]), if_neg (by simp [hg1w]), if_pos hxq]
    · intro b
      simp [mram_transfer_byte, MRAM_GPIO_HIGH, MRAM_GPIO_LOW]

/-- Witness for C4 (amended) at concrete inputs: with a stub whose
SPI fails only on multi-byte transfers, read and write fail with a
final chip-select-high attempt; with a stub whose SPI always fails,
write enable fails with no chip-select-high call at all. -/
theorem claim_C4_witness :
    (mram_read (some bigFailStub) () 0 true 1).ok = false ∧
    (mram_read (some bigFailStub) () 0 true 1).trace.getLast? =
      some (Ev.gpio 5 MRAM_GPIO_HIGH true) ∧
    (mram_write (some bigFailStub) () 0 (some [170]) 1).ok = false ∧
    (mram_write (some bigFailStub) () 0 (some [170]) 1).trace.getLast? =
      some (Ev.gpio 5 MRAM_GPIO_HIGH true) ∧
    (mram_write_enable (some badSpiStub) ()).ok = false ∧
    (∀ b, Ev.gpio 5 MRAM_GPIO_HIGH b ∉ (mram_write_enable (some badSpiStub) ()).trace) := by
  obtain ⟨hA, hB, _, _, _, _, _, _⟩ :=
    claim_C4_cs_cleanup bigFailStub () 0 1 [170] 7 (by decide) (by decide)
  obtain ⟨_, _, hC, _, _, _, _, _⟩ :=
    claim_C4_cs_cleanup badSpiStub () 0 1 [170] 7 (by decide) (by decide)
  have hA2 := hA (by decide) (by decide)
  have hB2 := hB (by decide) (by decide) (by decide)
  have hC2 := hC (by decide) (by decide)
  refine ⟨by rw [hA2], by rw [hA2]; decide, by rw [hB2], by rw [hB2]; decide,
    by rw [hC2.1], fun b => by rw [hC2.1]; exact hC2.2 b⟩

/-- C5: for every accepted read or write, the outbound bytes of the
(data) transaction start with the fixed opcode (0x03 read, 0x02
write) followed by the three bytes of the masked address, most
significant byte first; the top five bits of the 24-bit address field
are zero, and the 19-bit mask changes nothing for an accepted
address. -/
theorem claim_C5_header_bytes (m : mram sg) (s : sg) (addr len : Nat) (dat : List Nat)
    (h1 : 1 ≤ len) (hr : addr + len - 1 ≤ MRAM_MAX_ADDRESS) :
    let g1 := m.gpio_write s m.cs_pin MRAM_GPIO_LOW
    let w := mram_write_enable (some m) s
    let g1w := m.gpio_write w.state m.cs_pin MRAM_GPIO_LOW
    (addr &&& MRAM_ADDRESS_MASK = addr) ∧
    ((addr >>> 16) &&& 0xFF < 8) ∧
    (g1.ok = true →
      ∃ ok2 rest, (mram_read (some m) s addr true len).trace =
        Ev.gpio m.cs_pin MRAM_GPIO_LOW true ::
        Ev.spi [MRAM_CMD_READ, (addr >>> 16) &&& 0xFF, (addr >>> 8) &&& 0xFF, addr &&& 0xFF]
          (len + 4) true ok2 :: rest) ∧
    (w.ok = true → g1w.ok = true →
      ∃ ok2 rest, (mram_write (some m) s addr (some dat) len).trace =
        w.trace ++ Ev.gpio m.cs_pin MRAM_GPIO_LOW true ::
        Ev.spi (MRAM_CMD_WRITE :: ((addr >>> 16) &&& 0xFF) :: ((addr >>> 8) &&& 0xFF) ::
          (addr &&& 0xFF) :: (List.range len).map (fun i => dat.getD i 0))
          (len + 4) false ok2 :: rest) := by
  have hm : MRAM_MAX_ADDRESS = 524287 := by decide
  have hlen0 : ¬(len = 0) := by omega
  have hmod : (addr + len - 1) % size_t_mod = addr + len - 1 := by
    apply Nat.mod_eq_of_lt
    show _ < 2 ^ 64
    rw [hm] at hr; omega
  have ha : addr ≤ MRAM_MAX_ADDRESS := by rw [hm] at hr ⊢; omega
  have hcond : ¬(MRAM_MAX_ADDRESS < addr ∨
      MRAM_MAX_ADDRESS < (addr + len - 1) % size_t_mod) := by
    rw [hmod]; push_neg; exact ⟨ha, hr⟩
  have hmask := mask_noop addr ha
  have hmod4 : (len + 4) % size_t_mod = len + 4 := by
    apply Nat.mod_eq_of_lt
    show _ < 2 ^ 64
    rw [hm] at hr; omega
  simp only []
  refine ⟨hmask, top_byte_lt_8 addr ha, ?_, ?_⟩
  · intro hg1
    simp only [mram_read]
    rw [if_neg (by simp [hlen0]), if_neg hcond, hmask, hmod4, if_neg (by simp [hg1])]
    cases htc : (m.spi_transfer (m.gpio_write s m.cs_pin MRAM_GPIO_LOW).state
        [MRAM_CMD_READ, (addr >>> 16) &&& 0xFF, (addr >>> 8) &&& 0xFF, addr &&& 0xFF]
        (len + 4) true).ok
    · rw [if_pos rfl]
      exact ⟨false, _, rfl⟩
    · rw [if_neg (by simp)]
      exact ⟨true, _, rfl⟩
  · intro hw hg1w
    simp only [mram_write]
    rw [if_neg hlen0, if_neg hcond, hmask, hmod4, if_neg (by simp [hw]),
      if_neg (by simp [hg1w])]
    cases htc : (m.spi_transfer
        (m.gpio_write (mram_write_enable (some m) s).state m.cs_pin MRAM_GPIO_LOW).state
        (MRAM_CMD_WRITE :: ((addr >>> 16) &&& 0xFF) :: ((addr >>> 8) &&& 0xFF) ::
          (addr &&& 0xFF) :: (List.range len).map (fun i => dat.getD i 0))
        (len + 4) false).ok
    · rw [if_pos rfl]
      exact ⟨false, _, rfl⟩
    · rw [if_neg (by simp)]
      cases hg2c : (m.gpio_write (m.spi_transfer
          (m.gpio_write (mram_write_enable (some m) s).state m.cs_pin MRAM_GPIO_LOW).state
          (MRAM_CMD_WRITE :: ((addr >>> 16) &&& 0xFF) :: ((addr >>> 8) &&& 0xFF) ::
            (addr &&& 0xFF) :: (List.range len).map (fun i => dat.getD i 0))
          (len + 4) false).state m.cs_pin MRAM_GPIO_HIGH).ok
      · rw [if_pos rfl]
        exact ⟨true, _, rfl⟩
      · rw [if_neg (by simp)]
        simp only [List.append_assoc, List.cons_append, List.nil_append]
        exact ⟨true, _, rfl⟩

/-- Witness for C5 at a concrete input: read and write of two bytes
at address 291 through the always-succeeding stub capabilities. -/
theorem claim_C5_witness :
    (291 &&& MRAM_ADDRESS_MASK = 291) ∧ ((291 >>> 16) &&& 0xFF < 8) ∧
    (∃ ok2 rest, (mram_read (some okStub) () 291 true 2).trace =
      Ev.gpio 5 MRAM_GPIO_LOW true ::
      Ev.spi [MRAM_CMD_READ, (291 >>> 16) &&& 0xFF, (291 >>> 8) &&& 0xFF, 291 &&& 0xFF]
        (2 + 4) true ok2 :: rest) ∧
    (∃ ok2 rest, (mram_write (some okStub) () 291 (some [1, 2]) 2).trace =
      (mram_write_enable (some okStub) ()).trace ++ Ev.gpio 5 MRAM_GPIO_LOW true ::
      Ev.spi (MRAM_CMD_WRITE :: ((291 >>> 16) &&& 0xFF) :: ((291 >>> 8) &&& 0xFF) ::
        (291 &&& 0xFF) :: (List.range 2).map (fun i => ([1, 2] : List Nat).getD i 0))
        (2 + 4) false ok2 :: rest) := by
  obtain ⟨hmask, htop, hrd, hwr⟩ :=
    claim_C5_header_bytes okStub () 291 2 [1, 2] (by decide) (by decide)
  exact ⟨hmask, htop, hrd (by decide), hwr (by decide) (by decide)⟩

/-- C6: an accepted mram_read performs at most one byte-exchange call
overall, and on the success path performs exactly one, of declared
length 4 + len, never splitting header and data; the destination
buffer is the inbound bytes starting at offset 4, so the first four
inbound bytes are discarded. -/
theorem claim_C6_single_exchange (m : mram sg) (s : sg) (addr len : Nat)
    (h1 : 1 ≤ len) (hr : addr + len - 1 ≤ MRAM_MAX_ADDRESS) :
    let g1 := m.gpio_write s m.cs_pin MRAM_GPIO_LOW
    let a := addr &&& MRAM_ADDRESS_MASK
    let tx := [MRAM_CMD_READ, (a >>> 16) &&& 0xFF, (a >>> 8) &&& 0xFF, a &&& 0xFF]
    let t := m.spi_transfer g1.state tx (len + 4) true
    let g2 := m.gpio_write t.state m.cs_pin MRAM_GPIO_HIGH
    ((mram_read (some m) s addr true len).trace.countP Ev.isExchange ≤ 1) ∧
    (g1.ok = true → t.ok = true → g2.ok = true →
      mram_read (some m) s addr true len =
        ⟨g2.state, [Ev.gpio m.cs_pin MRAM_GPIO_LOW true, Ev.spi tx (len + 4) true true,
          Ev.gpio m.cs_pin MRAM_GPIO_HIGH true], true,
          (List.range len).map (fun i => t.rx.getD (i + 4) 0)⟩) := by
  have hm : MRAM_MAX_ADDRESS = 524287 := by decide
  have hlen0 : ¬(len = 0) := by omega
  have hmod : (addr + len - 1) % size_t_mod = addr + len - 1 := by
    apply Nat.mod_eq_of_lt
    show _ < 2 ^ 64
    rw [hm] at hr; omega
  have ha : addr ≤ MRAM_MAX_ADDRESS := by rw [hm] at hr ⊢; omega
  have hcond : ¬(MRAM_MAX_ADDRESS < addr ∨
      MRAM_MAX_ADDRESS < (addr + len - 1) % size_t_mod) := by
    rw [hmod]; push_neg; exact ⟨ha, hr⟩
  have hmod4 : (len + 4) % size_t_mod = len + 4 := by
    apply Nat.mod_eq_of_lt
    show _ < 2 ^ 64
    rw [hm] at hr; omega
  simp only []
  constructor
  · simp only [mram_read]
    rw [if_neg (by simp [hlen0]), if_neg hcond, hmod4]
    cases hg1c : (m.gpio_write s m.cs_pin MRAM_GPIO_LOW).ok
    · rw [if_pos rfl]
      simp [List.countP_cons, Ev.isExchange]
    · rw [if_neg (by simp)]
      cases htc : (m.spi_transfer (m.gpio_write s m.cs_pin MRAM_GPIO_LOW).state
          [MRAM_CMD_READ, ((addr &&& MRAM_ADDRESS_MASK) >>> 16) &&& 0xFF,
            ((addr &&& MRAM_ADDRESS_MASK) >>> 8) &&& 0xFF, (addr &&& MRAM_ADDRESS_MASK) &&& 0xFF]
          (len + 4) true).ok
      · rw [if_pos rfl]
        simp [List.countP_cons, Ev.isExchange]
      · rw [if_neg (by simp)]
        simp [List.countP_cons, Ev.isExchange]
  · intro hg1 ht hg2
    simp only [mram_read]
    rw [if_neg (by simp [hlen0]), if_neg hcond, hmod4, if_neg (by simp [hg1]),
      if_neg (by simp [ht]), hg2]

/-- Witness for C6 at a concrete input: reading three bytes at
address 7 through the always-succeeding stub performs one exchange of
declared length 7 and returns the inbound bytes from offset 4. -/
theorem claim_C6_witness :
    ((mram_read (some okStub) () 7 true 3).trace.countP Ev.isExchange ≤ 1) ∧
    mram_read (some okStub) () 7 true 3 =
      ⟨(), [Ev.gpio 5 MRAM_GPIO_LOW true,
        Ev.spi [MRAM_CMD_READ, 0, 0, 7] (3 + 4) true true,
        Ev.gpio 5 MRAM_GPIO_HIGH true], true, [0, 0, 0]⟩ := by
  obtain ⟨hcount, hsucc⟩ := claim_C6_single_exchange okStub () 7 3 (by decide) (by decide)
  refine ⟨hcount, ?_⟩
  rw [hsucc (by decide) (by decide) (by decide)]
  decide

/-- C7 (code bug): for every accepted read, the outbound buffer the
driver populates and hands to the byte-exchange capability has length
4, strictly less than the declared transfer length 4 + len, so the C
code reads len bytes beyond the end of its 4-byte tx_buf. -/
theorem claim_C7_read_tx_underpopulated (m : mram sg) (s : sg) (addr len : Nat)
    (h1 : 1 ≤ len) (hr : addr + len - 1 ≤ MRAM_MAX_ADDRESS) :
    let g1 := m.gpio_write s m.cs_pin MRAM_GPIO_LOW
    g1.ok = true →
      ∃ tx b rest, (mram_read (some m) s addr true len).trace =
        Ev.gpio m.cs_pin MRAM_GPIO_LOW true :: Ev.spi tx (len + 4) true b :: rest ∧
        tx.length = 4 ∧ tx.length < len + 4 := by
  have hm : MRAM_MAX_ADDRESS = 524287 := by decide
  have hlen0 : ¬(len = 0) := by omega
  have hmod : (addr + len - 1) % size_t_mod = addr + len - 1 := by
    apply Nat.mod_eq_of_lt
    show _ < 2 ^ 64
    rw [hm] at hr; omega
  have ha : addr ≤ MRAM_MAX_ADDRESS := by rw [hm] at hr ⊢; omega
  have hcond : ¬(MRAM_MAX_ADDRESS < addr ∨
      MRAM_MAX_ADDRESS < (addr + len - 1) % size_t_mod) := by
    rw [hmod]; push_neg; exact ⟨ha, hr⟩
  have hmod4 : (len + 4) % size_t_mod = len + 4 := by
    apply Nat.mod_eq_of_lt
    show _ < 2 ^ 64
    rw [hm] at hr; omega
  simp only []
  intro hg1
  simp only [mram_read]
  rw [if_neg (by simp [hlen0]), if_neg hcond, hmod4, if_neg (by simp [hg1])]
  cases htc : (m.spi_transfer (m.gpio_write s m.cs_pin MRAM_GPIO_LOW).state
      [MRAM_CMD_READ, ((addr &&& MRAM_ADDRESS_MASK) >>> 16) &&& 0xFF,
        ((addr &&& MRAM_ADDRESS_MASK) >>> 8) &&& 0xFF, (addr &&& MRAM_ADDRESS_MASK) &&& 0xFF]
      (len + 4) true).ok
  · rw [if_pos rfl]
    exact ⟨_, false, _, rfl, rfl, by simp only [List.length_cons, List.length_nil]; omega⟩
  · rw [if_neg (by simp)]
    exact ⟨_, true, _, rfl, rfl, by simp only [List.length_cons, List.length_nil]; omega⟩

/-- Witness for C7 at a concrete input: the accepted one-byte read at
address 0 hands the exchange a 4-byte outbound buffer with declared
length 5. -/
theorem claim_C7_witness :
    ∃ tx b rest, (mram_read (some okStub) () 0 true 1).trace =
      Ev.gpio 5 MRAM_GPIO_LOW true :: Ev.spi tx (1 + 4) true b :: rest ∧
      tx.length = 4 ∧ tx.length < 1 + 4 :=
  claim_C7_read_tx_underpopulated okStub () 0 1 (by decide) (by decide) (by decide)

/-- Testing a single bit through a power-of-two mask agrees with
Nat.testBit. -/
theorem and_two_pow_ne_zero (x i : Nat) : decide (x &&& 2 ^ i ≠ 0) = x.testBit i := by
  rw [Nat.and_two_pow]
  cases h : x.testBit i
  · simp
  · have hp : 2 ^ i ≠ 0 := Nat.pos_iff_ne_zero.mp (Nat.two_pow_pos i)
    simp [hp]

/-- The WEL mask 0x02 tests bit 1. -/
theorem and_wel_bit (x : Nat) : decide (x &&& 0x02 ≠ 0) = x.testBit 1 := by
  have h2 : (0x02 : Nat) = 2 ^ 1 := by norm_num
  rw [h2]
  exact and_two_pow_ne_zero x 1

/-- The WPEN mask 0x80 tests bit 7. -/
theorem and_wpen_bit (x : Nat) : decide (x &&& 0x80 ≠ 0) = x.testBit 7 := by
  have h2 : (0x80 : Nat) = 2 ^ 7 := by norm_num
  rw [h2]
  exact and_two_pow_ne_zero x 7

/-- The block-protect mask 0x04 shifted by n tests bit 2 + n. -/
theorem and_block_bit (x n : Nat) : decide (x &&& (0x04 <<< n) ≠ 0) = x.testBit (2 + n) := by
  have hs : (0x04 : Nat) <<< n = 2 ^ (2 + n) := by
    rw [Nat.shiftLeft_eq, pow_add]
    norm_num
  rw [hs]
  exact and_two_pow_ne_zero x (2 + n)

/-- C8: each derived status query performs a fresh status-register
read on every call (its trace is exactly that of the read); given a
successful read with status byte sb, write-enabled reflects bit 1,
write-protected bit 7, and block-protected n reflects bit 2 + n for
n = 0 and n = 1 independently; each query returns false when the
handle is NULL or the status read fails. -/
theorem claim_C8_status_queries (m : mram sg) (s : sg) :
    let r := mram_read_status_register (some m) s true
    (mram_is_write_enabled (none : Option (mram sg)) s = ⟨s, [], false⟩) ∧
    (mram_is_write_protected (none : Option (mram sg)) s = ⟨s, [], false⟩) ∧
    (∀ n, mram_is_block_protected (none : Option (mram sg)) s n = ⟨s, [], false⟩) ∧
    (r.ok = false →
      mram_is_write_enabled (some m) s = ⟨r.state, r.trace, false⟩ ∧
      mram_is_write_protected (some m) s = ⟨r.state, r.trace, false⟩ ∧
      ∀ n, mram_is_block_protected (some m) s n = ⟨r.state, r.trace, false⟩) ∧
    (r.ok = true →
      mram_is_write_enabled (some m) s = ⟨r.state, r.trace, r.status.testBit 1⟩ ∧
      mram_is_write_protected (some m) s = ⟨r.state, r.trace, r.status.testBit 7⟩ ∧
      mram_is_block_protected (some m) s 0 = ⟨r.state, r.trace, r.status.testBit 2⟩ ∧
      mram_is_block_protected (some m) s 1 = ⟨r.state, r.trace, r.status.testBit 3⟩) := by
  simp only []
  refine ⟨rfl, rfl, fun n => rfl, ?_, ?_⟩
  · intro hro
    refine ⟨?_, ?_, fun n => ?_⟩
    · simp only [mram_is_write_enabled]
      rw [if_pos hro]
    · simp only [mram_is_write_protected]
      rw [if_pos hro]
    · simp only [mram_is_block_protected]
      rw [if_pos hro]
  · intro hro
    refine ⟨?_, ?_, ?_, ?_⟩
    · simp only [mram_is_write_enabled]
      rw [if_neg (by simp [hro]), and_wel_bit]
    · simp only [mram_is_write_protected]
      rw [if_neg (by simp [hro]), and_wpen_bit]
    · simp only [mram_is_block_protected]
      rw [if_neg (by simp [hro]), and_block_bit]
    · simp only [mram_is_block_protected]
      rw [if_neg (by simp [hro]), and_block_bit]

/-- Witness for C8 at concrete inputs: with a stub returning status
0xFF the queries report set bits after a fresh four-event status
read; with a stub whose exchange fails they return false. -/
theorem claim_C8_witness :
    mram_is_write_enabled (some ffStub) () =
      ⟨(), [Ev.gpio 5 MRAM_GPIO_LOW true, Ev.spi [MRAM_CMD_RDSR] 1 false true,
        Ev.spi [0xFF] 1 true true, Ev.gpio 5 MRAM_GPIO_HIGH true], true⟩ ∧
    mram_is_block_protected (some ffStub) () 0 =
      ⟨(), [Ev.gpio 5 MRAM_GPIO_LOW true, Ev.spi [MRAM_CMD_RDSR] 1 false true,
        Ev.spi [0xFF] 1 true true, Ev.gpio 5 MRAM_GPIO_HIGH true], true⟩ ∧
    mram_is_write_enabled (some badSpiStub) () =
      ⟨(), [Ev.gpio 5 MRAM_GPIO_LOW true, Ev.spi [MRAM_CMD_RDSR] 1 false false], false⟩ := by
  obtain ⟨_, _, _, _, hok⟩ := claim_C8_status_queries ffStub ()
  obtain ⟨_, _, _, hbad, _⟩ := claim_C8_status_queries badSpiStub ()
  have h1 := (hok (by decide)).1
  have h2 := (hok (by decide)).2.2.1
  have h3 := (hbad (by decide)).1
  exact ⟨by rw [h1]; decide, by rw [h2]; decide, by rw [h3]; decide⟩

/-- C9: on their success paths, mram_sleep and mram_wake issue their
single-byte command inside one chip-select frame, deassert chip
select, and only then record the blocking delay, which is the last
action before returning true; the delays are exactly the documented
minima (100 us for sleep, 400 us for wake). -/
theorem claim_C9_power_delays (m : mram sg) (s : sg) :
    let g1 := m.gpio_write s m.cs_pin MRAM_GPIO_LOW
    let xs := mram_transfer_byte m g1.state MRAM_CMD_SLEEP false
    let xk := mram_transfer_byte m g1.state MRAM_CMD_WAKE false
    let g2s := m.gpio_write xs.state m.cs_pin MRAM_GPIO_HIGH
    let g2k := m.gpio_write xk.state m.cs_pin MRAM_GPIO_HIGH
    (100 ≤ MRAM_TDP_US ∧ 400 ≤ MRAM_TRDP_US) ∧
    (g1.ok = true → xs.ok = true → g2s.ok = true →
      mram_sleep (some m) s =
        ⟨g2s.state, [Ev.gpio m.cs_pin MRAM_GPIO_LOW true, xs.ev,
          Ev.gpio m.cs_pin MRAM_GPIO_HIGH true, Ev.delay MRAM_TDP_US], true⟩) ∧
    (g1.ok = true → xk.ok = true → g2k.ok = true →
      mram_wake (some m) s =
        ⟨g2k.state, [Ev.gpio m.cs_pin MRAM_GPIO_LOW true, xk.ev,
          Ev.gpio m.cs_pin MRAM_GPIO_HIGH true, Ev.delay MRAM_TRDP_US], true⟩) := by
  simp only []
  refine ⟨⟨by decide, by decide⟩, ?_, ?_⟩
  · intro hg1 hxs hg2
    simp only [mram_sleep]
    rw [if_neg (by simp [hg1]), if_neg (by simp [hxs]), if_neg (by simp [hg2])]
  · intro hg1 hxk hg2
    simp only [mram_wake]
    rw [if_neg (by simp [hg1]), if_neg (by simp [hxk]), if_neg (by simp [hg2])]

/-- Witness for C9 at a concrete input: sleep and wake through the
always-succeeding stub end with their delay event after the
chip-select deassertion. -/
theorem claim_C9_witness :
    (100 ≤ MRAM_TDP_US ∧ 400 ≤ MRAM_TRDP_US) ∧
    mram_sleep (some okStub) () =
      ⟨(), [Ev.gpio 5 MRAM_GPIO_LOW true, Ev.spi [MRAM_CMD_SLEEP] 1 false true,
        Ev.gpio 5 MRAM_GPIO_HIGH true, Ev.delay MRAM_TDP_US], true⟩ ∧
    mram_wake (some okStub) () =
      ⟨(), [Ev.gpio 5 MRAM_GPIO_LOW true, Ev.spi [MRAM_CMD_WAKE] 1 false true,
        Ev.gpio 5 MRAM_GPIO_HIGH true, Ev.delay MRAM_TRDP_US], true⟩ := by
  obtain ⟨hconst, hsl, hwk⟩ := claim_C9_power_delays okStub ()
  refine ⟨hconst, ?_, ?_⟩
  · rw [hsl (by decide) (by decide) (by decide)]
    decide
  · rw [hwk (by decide) (by decide) (by decide)]
    decide

/-- C10: mram_init validates the three pointers, then drives chip
select high and issues a full write-disable transaction, failing if
either bus operation fails; on the faithful chip model a successful
build leaves the device deselected with the write-enable latch
cleared, and the trace shows bus activity. -/
theorem claim_C10_init (go : Option (sg → Nat → Nat → GpioResult sg))
    (so : Option (sg → List Nat → Nat → Bool → SpiResult sg))
    (g : sg → Nat → Nat → GpioResult sg) (sp : sg → List Nat → Nat → Bool → SpiResult sg)
    (cs_pin : Nat) (s : sg) (cs2 : Nat) (ch : Chip) :
    (mram_init false go so cs_pin s = ⟨s, [], false, none⟩) ∧
    (mram_init true none so cs_pin s = ⟨s, [], false, none⟩) ∧
    (mram_init true go none cs_pin s = ⟨s, [], false, none⟩) ∧
    ((g s cs_pin MRAM_GPIO_HIGH).ok = false →
      mram_init true (some g) (some sp) cs_pin s =
        ⟨(g s cs_pin MRAM_GPIO_HIGH).state, [Ev.gpio cs_pin MRAM_GPIO_HIGH false], false,
         some ⟨g, sp, cs_pin⟩⟩) ∧
    ((g s cs_pin MRAM_GPIO_HIGH).ok = true →
      mram_init true (some g) (some sp) cs_pin s =
        ⟨(mram_write_disable (some ⟨g, sp, cs_pin⟩) (g s cs_pin MRAM_GPIO_HIGH).state).state,
         Ev.gpio cs_pin MRAM_GPIO_HIGH true ::
           (mram_write_disable (some ⟨g, sp, cs_pin⟩) (g s cs_pin MRAM_GPIO_HIGH).state).trace,
         (mram_write_disable (some ⟨g, sp, cs_pin⟩) (g s cs_pin MRAM_GPIO_HIGH).state).ok,
         some ⟨g, sp, cs_pin⟩⟩) ∧
    ((mram_init true (some (chip_gpio cs2)) (some chip_spi) cs2 ch).ok = true ∧
     (mram_init true (some (chip_gpio cs2)) (some chip_spi) cs2 ch).state.csLow = false ∧
     (mram_init true (some (chip_gpio cs2)) (some chip_spi) cs2 ch).state.wel = false ∧
     (mram_init true (some (chip_gpio cs2)) (some chip_spi) cs2 ch).trace ≠ []) := by
  refine ⟨rfl, ?_, ?_, ?_, ?_, ?_⟩
  · cases so with
    | none => rfl
    | some sp0 => rfl
  · cases go with
    | none => rfl
    | some g0 => rfl
  · intro h
    simp only [mram_init]
    rw [if_neg (by simp), if_pos h]
  · intro h
    simp only [mram_init]
    rw [if_neg (by simp), if_neg (by simp [h])]
  · have hfold : (⟨chip_gpio cs2, chip_spi, cs2⟩ : mram Chip) = chipHandle cs2 := rfl
    have hinit : mram_init true (some (chip_gpio cs2)) (some chip_spi) cs2 ch =
        ⟨⟨ch.mem, false, false⟩,
         Ev.gpio cs2 MRAM_GPIO_HIGH true :: [Ev.gpio cs2 MRAM_GPIO_LOW true,
           Ev.spi [MRAM_CMD_WRDI] 1 false true, Ev.gpio cs2 MRAM_GPIO_HIGH true],
         true, some ⟨chip_gpio cs2, chip_spi, cs2⟩⟩ := by
      simp only [mram_init]
      rw [if_neg (by simp)]
      rw [if_neg (by simp [chip_gpio])]
      rw [hfold]
      have hg : chip_gpio cs2 ch cs2 MRAM_GPIO_HIGH = ⟨⟨ch.mem, false, ch.wel⟩, true⟩ := by
        simp [chip_gpio, MRAM_GPIO_HIGH, MRAM_GPIO_LOW]
      simp only [hg]
      rw [chip_wrdi_run cs2 ⟨ch.mem, false, ch.wel⟩]
    rw [hinit]
    exact ⟨rfl, rfl, rfl, by simp⟩

/-- Witness for C10 at concrete inputs: a NULL handle is rejected; a
failing chip-select drive fails the build; through the
always-succeeding stub the build succeeds after a CS-high and a full
write-disable transaction; on the chip model a successful build
leaves the device deselected with the latch cleared. -/
theorem claim_C10_witness :
    mram_init false (none : Option (Unit → Nat → Nat → GpioResult Unit)) none 5 () =
      ⟨(), [], false, none⟩ ∧
    (mram_init true (some badGpio) (some okSpi) 5 ()).ok = false ∧
    (mram_init true (some okGpio) (some okSpi) 5 ()).ok = true ∧
    (mram_init true (some okGpio) (some okSpi) 5 ()).trace =
      [Ev.gpio 5 MRAM_GPIO_HIGH true, Ev.gpio 5 MRAM_GPIO_LOW true,
       Ev.spi [MRAM_CMD_WRDI] 1 false true, Ev.gpio 5 MRAM_GPIO_HIGH true] ∧
    (mram_init true (some (chip_gpio 9)) (some chip_spi) 9 ⟨fun _ => 0, true, true⟩).ok = true ∧
    (mram_init true (some (chip_gpio 9)) (some chip_spi) 9
      ⟨fun _ => 0, true, true⟩).state.csLow = false ∧
    (mram_init true (some (chip_gpio 9)) (some chip_spi) 9
      ⟨fun _ => 0, true, true⟩).state.wel = false := by
  obtain ⟨h1, _, _, _, h5, hc⟩ :=
    claim_C10_init (none : Option (Unit → Nat → Nat → GpioResult Unit)) none
      okGpio okSpi 5 () 9 ⟨fun _ => 0, true, true⟩
  obtain ⟨_, _, _, h4b, _, _⟩ :=
    claim_C10_init (none : Option (Unit → Nat → Nat → GpioResult Unit)) none
      badGpio okSpi 5 () 9 ⟨fun _ => 0, true, true⟩
  refine ⟨h1, ?_, ?_, ?_, hc.1, hc.2.1, hc.2.2.1⟩
  · rw [h4b (by decide)]
  · rw [h5 (by decide)]
    decide
  · rw [h5 (by decide)]
    decide
